import Mathlib

/-!
Verification of the PCB defect-detection repository.

This file gives a shallow embedding, in Lean 4, of the parts of the
repository that the verified properties talk about:

* `scripts/upload_data.py` — annotation-line parsing
  (`find_and_parse_labels`), the label/image join and `_test`-suffix
  handling in `create_tables`, and the seeded 90/10 `train_test_split`;
* `streamlitapp/page_helper.py` — `get_image`;
* `streamlitapp/streamlit_app.py` — the inference handler (JSON key
  guard, top-5 selection via `nlargest`, and the
  `DETECTION_OUTPUTS`/`DETECTIONS` persistence step);
* `streamlitapp/utils.py` — `exec_python_script` and the module-level
  name environment it executes under.

Numbers parsed from annotation tokens are modelled as exact decimals,
with explicit `inf`/`nan` constructors mirroring the values Python
`float()` can produce; model scores and coordinates are modelled as
exact rationals; machine-float rounding is outside the model.
Warehouse tables are modelled as Lean lists of row structures, and
Python exceptions as `Except` values.
-/

/-- A Python exception, as far as the verified properties need to
distinguish them: `NameError` (with the unresolvable name) and
`ValueError` (raised by failed `float()`/`int()` conversions and by
mismatched-length dataframe construction). -/
inductive PyError where
  | nameError (n : String)
  | valueError
deriving DecidableEq

/-- The result of Python `float(token)`: a finite decimal value, a
signed infinity, or a NaN.  `float("inf")`/`float("nan")` (with
optional sign, case-insensitive) produce the non-finite values.  A
finite value is kept as an exact unnormalized decimal
`num / 10 ^ den10`, so that parsing stays computable by the kernel;
`PyFloat.val` gives its rational value. -/
inductive PyFloat where
  | finite (num : Int) (den10 : Nat)
  | inf (pos : Bool)
  | nan
deriving DecidableEq

/-- Rational value of a finite parsed float (`none` for `inf`/`nan`). -/
def PyFloat.val : PyFloat → Option Rat
  | .finite n e => some ((n : Rat) / (10 : Rat) ^ e)
  | _ => none

deriving instance DecidableEq for Except

/-- The six ASCII whitespace characters Python `str.split()` (no
separator argument) splits on. -/
def isPySpace (c : Char) : Bool :=
  c == ' ' || c == '\t' || c == '\n' || c == '\x0d' || c == '\x0b' || c == '\x0c'

/-- Worker for `pySplit`: `acc` holds the characters of the token
currently being read, in reverse. -/
def pySplitAux : List Char → List Char → List (List Char)
  | [], acc => if acc.isEmpty then [] else [acc.reverse]
  | c :: rest, acc =>
    if isPySpace c then
      if acc.isEmpty then pySplitAux rest [] else acc.reverse :: pySplitAux rest []
    else pySplitAux rest (c :: acc)

/-- Python `line.strip().split()`: split on runs of whitespace,
discarding empty tokens (stripping first is a no-op for this split). -/
def pySplit (l : List Char) : List (List Char) := pySplitAux l []

/-- Tokenize one annotation line the way `find_and_parse_labels` does:
`line.strip().split()`. -/
def tokenize (line : String) : List String := (pySplit line.data).map String.mk

/-- Continue reading a digit group after at least one digit has been
read: further digits, or a single underscore that must be followed by
a digit (Python numeric-literal underscore rule). Returns the digits
collected and the unconsumed remainder. -/
def digitTail : List Char → List Char × List Char
  | c :: rest =>
    if c.isDigit then
      let (ds, rem) := digitTail rest
      (c :: ds, rem)
    else if c == '_' then
      match rest with
      | d :: rest2 =>
        if d.isDigit then
          let (ds, rem) := digitTail rest2
          (d :: ds, rem)
        else ([], c :: rest)
      | [] => ([], [c])
    else ([], c :: rest)
  | [] => ([], [])

/-- Read a non-empty digit group (with Python underscore rules) from
the front of `l`; `none` if `l` does not start with a digit. -/
def parseUDigits (l : List Char) : Option (List Char × List Char) :=
  match l with
  | c :: rest =>
    if c.isDigit then
      let (ds, rem) := digitTail rest
      some (c :: ds, rem)
    else none
  | [] => none

/-- Decimal value of a digit list. -/
def digitsToNat (ds : List Char) : Nat :=
  ds.foldl (fun a c => 10 * a + (c.toNat - ('0').toNat)) 0

/-- Build the finite float value `±(ipart.fpart) * 10^ex` as an exact
unnormalized decimal: mantissa `digits(ipart ++ fpart)`, net decimal
exponent `ex - fpart.length`. -/
def mkFinite (pos : Bool) (ipart fpart : List Char) (ex : Int) : PyFloat :=
  let d : Int := (digitsToNat (ipart ++ fpart) : Nat)
  let m : Int := if pos then d else -d
  let e : Int := ex - (fpart.length : Int)
  if 0 ≤ e then .finite (m * (10 : Int) ^ e.toNat) 0 else .finite m (-e).toNat

/-- Case-insensitive (ASCII) match of `l` against the lowercase word
`pat`, consuming all of `l`. -/
def matchCI : List Char → List Char → Bool
  | [], [] => true
  | c :: cs, p :: ps => c.toLower == p && matchCI cs ps
  | _, _ => false

/-- Exponent-and-end part of `float()` parsing: after the mantissa
(`ipart`, `fpart`), accept end of input or `e`/`E` with an optionally
signed digit group, then end of input. -/
def parseExpoEnd (pos : Bool) (ipart fpart : List Char) (rem : List Char) : Option PyFloat :=
  match rem with
  | [] => some (mkFinite pos ipart fpart 0)
  | e :: rest =>
    if e == 'e' || e == 'E' then
      match rest with
      | '+' :: r2 =>
        match parseUDigits r2 with
        | some (es, r3) =>
          if r3.isEmpty then some (mkFinite pos ipart fpart (digitsToNat es : Int)) else none
        | none => none
      | '-' :: r2 =>
        match parseUDigits r2 with
        | some (es, r3) =>
          if r3.isEmpty then some (mkFinite pos ipart fpart (-(digitsToNat es : Int))) else none
        | none => none
      | r2 =>
        match parseUDigits r2 with
        | some (es, r3) =>
          if r3.isEmpty then some (mkFinite pos ipart fpart (digitsToNat es : Int)) else none
        | none => none
    else none

/-- `float()` parsing after an optional sign has been consumed:
`inf`/`infinity`/`nan` (case-insensitive), or a decimal mantissa with
optional fraction and exponent. -/
def parseFloatBody (pos : Bool) (l : List Char) : Option PyFloat :=
  if matchCI l (['i', 'n', 'f']) || matchCI l (['i', 'n', 'f', 'i', 'n', 'i', 't', 'y']) then
    some (.inf pos)
  else if matchCI l (['n', 'a', 'n']) then some .nan
  else
    match parseUDigits l with
    | some (ds, rem) =>
      match rem with
      | '.' :: rem2 =>
        match parseUDigits rem2 with
        | some (fs, rem3) => parseExpoEnd pos ds fs rem3
        | none => parseExpoEnd pos ds [] rem2
      | _ => parseExpoEnd pos ds [] rem
    | none =>
      match l with
      | '.' :: rem2 =>
        match parseUDigits rem2 with
        | some (fs, rem3) => parseExpoEnd pos [] fs rem3
        | none => none
      | _ => none

/-- Python `float(s)` on a whitespace-free token: optional sign, then
`inf`/`nan` or a decimal number.  `none` models a raised `ValueError`. -/
def pyFloatParse (s : String) : Option PyFloat :=
  match s.data with
  | '+' :: rest => parseFloatBody true rest
  | '-' :: rest => parseFloatBody false rest
  | l => parseFloatBody true l

/-- Python `int(s)` on a whitespace-free token: optional sign and a
digit group (with underscore rules), nothing else.  `none` models a
raised `ValueError`. -/
def pyIntParse (s : String) : Option Int :=
  match s.data with
  | '+' :: rest =>
    match parseUDigits rest with
    | some (ds, rem) => if rem.isEmpty then some ((digitsToNat ds : Nat) : Int) else none
    | none => none
  | '-' :: rest =>
    match parseUDigits rest with
    | some (ds, rem) => if rem.isEmpty then some (-((digitsToNat ds : Nat) : Int)) else none
    | none => none
  | l =>
    match parseUDigits l with
    | some (ds, rem) => if rem.isEmpty then some ((digitsToNat ds : Nat) : Int) else none
    | none => none

-- sanity checks on the parsers
example : tokenize ("  1 2.5\t3 4  2 ") = [("1"), ("2.5"), ("3"), ("4"), ("2")] := by decide
example : pyFloatParse ("2.5") = some (.finite 25 1) := by decide
example : pyFloatParse ("-1e2") = some (.finite (-100) 0) := by decide
example : pyFloatParse ("1_0.2_5") = some (.finite 1025 2) := by decide
example : pyFloatParse ("1_.5") = none := by decide
example : pyFloatParse ("inf") = some (.inf true) := by decide
example : pyFloatParse ("-Infinity") = some (.inf false) := by decide
example : pyFloatParse ("nan") = some .nan := by decide
example : pyFloatParse ("a") = none := by decide
example : pyFloatParse (".5") = some (.finite 5 1) := by decide
example : pyFloatParse ("1.") = some (.finite 1 0) := by decide
example : pyFloatParse (".") = none := by decide
example : pyIntParse ("2") = some 2 := by decide
example : pyIntParse ("-13") = some (-13) := by decide
example : pyIntParse ("2.0") = none := by decide
example : pyIntParse ("") = none := by decide

/-! ## `scripts/upload_data.py` — label parsing and table construction -/

/-- One bounding-box annotation record, as appended by
`find_and_parse_labels` for a 5-token line: the image's base filename,
the four coordinates parsed with `float()`, and the class id parsed
with `int()` (`class` is a Python keyword, so the field is `cls`). -/
structure LabelRec where
  filename : String
  xmin : PyFloat
  ymin : PyFloat
  xmax : PyFloat
  ymax : PyFloat
  cls : Int
deriving DecidableEq

/-- Processing of one annotation-file line by `find_and_parse_labels`:
tokenize with `line.strip().split()`; a 5-token line contributes one
record (conversions evaluated left to right, a failed conversion
raising `ValueError`); any other token count contributes nothing. -/
def parseLine (base line : String) : Except PyError (List LabelRec) :=
  match tokenize line with
  | [x1, x2, x3, x4, x5] =>
    match pyFloatParse x1 with
    | none => .error .valueError
    | some v1 =>
      match pyFloatParse x2 with
      | none => .error .valueError
      | some v2 =>
        match pyFloatParse x3 with
        | none => .error .valueError
        | some v3 =>
          match pyFloatParse x4 with
          | none => .error .valueError
          | some v4 =>
            match pyIntParse x5 with
            | none => .error .valueError
            | some c => .ok [⟨base, v1, v2, v3, v4, c⟩]
  | _ => .ok []

/-- All records contributed by one label file (lines processed in
order; the first raised exception aborts the whole parse). -/
def parseLabelFile (base : String) (lines : List String) : Except PyError (List LabelRec) :=
  match lines with
  | [] => .ok []
  | line :: rest => do
    let recs ← parseLine base line
    let more ← parseLabelFile base rest
    pure (recs ++ more)

/-- `find_and_parse_labels`, with the directory walk abstracted to the
list of (base filename, label-file lines) pairs it visits, in order.
Each file's records are accumulated; an exception raised while parsing
any line escapes the whole function. -/
def find_and_parse_labels (files : List (String × List String)) :
    Except PyError (List LabelRec) :=
  match files with
  | [] => .ok []
  | (base, lines) :: rest => do
    let recs ← parseLabelFile base lines
    let more ← find_and_parse_labels rest
    pure (recs ++ more)

/-- One encoded-image record produced by `read_and_encode_images`: the
`Filename` column already carries the `_test` suffix, and `image_data`
is the base64 payload. -/
structure ImageRec where
  Filename : String
  image_data : String
deriving DecidableEq

/-- One row of the merged `train_images_labels` table. -/
structure MergedRec where
  Filename : String
  xmin : PyFloat
  ymin : PyFloat
  xmax : PyFloat
  ymax : PyFloat
  cls : Int
  image_data : String
deriving DecidableEq

/-- Does the character list start with the 5 characters `_test`? -/
def startsWithTest : List Char → Bool
  | a :: b :: c :: d :: e :: _ =>
    a == '_' && b == 't' && c == 'e' && d == 's' && e == 't'
  | _ => false

/-- Does `_test` occur anywhere in the character list? -/
def containsTest : List Char → Bool
  | [] => false
  | c :: rest => startsWithTest (c :: rest) || containsTest rest

/-- Pandas `Series.str.replace('_test', '', regex=False)` on one
value: remove every non-overlapping occurrence of `_test`, scanning
left to right. -/
def stripTestAll : List Char → List Char
  | '_' :: 't' :: 'e' :: 's' :: 't' :: rest => stripTestAll rest
  | c :: rest => c :: stripTestAll rest
  | [] => []

/-- String-level wrapper of `stripTestAll`. -/
def stripTest (s : String) : String := String.mk (stripTestAll s.data)

/-- The merge stage of `create_tables`: append `_test` to each
annotation's filename, inner-join with the encoded-image records on
the suffixed `Filename` (left-major order, as `pd.merge(how='inner')`
produces), then apply `str.replace('_test', '', regex=False)` to the
joined `Filename` column. -/
def create_tables_merge (labels : List LabelRec) (images : List ImageRec) :
    List MergedRec :=
  let merged := labels.flatMap (fun l =>
    (images.filter (fun i => i.Filename == l.filename ++ ("_test"))).map (fun i =>
      ({ Filename := l.filename ++ ("_test"), xmin := l.xmin, ymin := l.ymin,
         xmax := l.xmax, ymax := l.ymax, cls := l.cls,
         image_data := i.image_data } : MergedRec)))
  merged.map (fun m => { m with Filename := stripTest m.Filename })

/-- A step of the linear congruential generator standing in for the
library shuffler's pseudo-random stream. -/
def lcgNext (s : Nat) : Nat := (1103515245 * s + 12345) % 2147483648

/-- Modelled from the library: a deterministic seeded Fisher-Yates
walk — the permutation applied by `train_test_split` is a pure
function of the seed and the input. -/
def shuffleSeeded {α : Type} (s : Nat) (l : List α) : List α :=
  match l with
  | [] => []
  | x :: xs =>
    let i := s % (xs.length + 1)
    let y := (x :: xs).getD i x
    let rest := (x :: xs).eraseIdx i
    y :: shuffleSeeded (lcgNext s) rest
termination_by l.length
decreasing_by
  simp [rest, List.length_eraseIdx_of_lt, Nat.mod_lt]

/-- Modelled from the spec: `sklearn.model_selection.train_test_split`
with `test_size=0.1` — "Split the joined result using a fixed 90/10
train/test ratio with a fixed random seed (42) for reproducibility".
The library draws its permutation from `random_state` when one is
given and from ambient entropy otherwise; `entropy` models that
ambient source.  The test partition receives `ceil(n/10)` rows. -/
def train_test_split {α : Type} (entropy : Nat) (random_state : Option Nat)
    (df : List α) : List α × List α :=
  let seed := random_state.getD entropy
  let n_test := (df.length + 9) / 10
  let perm := shuffleSeeded seed df
  (perm.drop n_test, perm.take n_test)

/-- The four tables written by `create_tables`. -/
structure Tables where
  LABELS_TRAIN : List LabelRec
  train_images_labels : List MergedRec
  training_data : List MergedRec
  test_data : List MergedRec
deriving DecidableEq

/-- `create_tables`: write the raw labels, merge with images, and
split 90/10 with `random_state=42`. -/
def create_tables (entropy : Nat) (labels : List LabelRec) (images : List ImageRec) :
    Tables :=
  let merged := create_tables_merge labels images
  let (train_df, test_df) := train_test_split entropy (some 42) merged
  ⟨labels, merged, train_df, test_df⟩

/-- The offline loader's `main`, reduced to what decides its exit
code: any exception escaping the pipeline (label parsing included) is
caught by the top-level handler and turns into `sys.exit(1)`;
otherwise the tables are written and the process exits 0. -/
def main_exit (files : List (String × List String)) (images : List ImageRec)
    (entropy : Nat) : Nat :=
  match find_and_parse_labels files with
  | .error _ => 1
  | .ok labels =>
    let _tables := create_tables entropy labels images
    0

-- sanity checks
example : parseLine ("img1") ("1 2.5 3 4 2") =
    .ok [⟨("img1"), .finite 1 0, .finite 25 1, .finite 3 0, .finite 4 0, 2⟩] := by decide
example : parseLine ("img1") ("1 2 3") = .ok [] := by decide
example : parseLine ("img1") ("a b c d e") = .error .valueError := by decide
example : stripTest ("a_test_b_test") = ("a_b") := by decide
example : stripTest ("00041000_test") = ("00041000") := by decide
example : main_exit [(("f1"), [("a b c d e")])] [] 0 = 1 := by decide

/-! ## `streamlitapp/page_helper.py` — `get_image` -/

/-- The base64 alphabet. -/
def b64Alphabet : List Char :=
  ("ABCDEFGHIJKLMNOPQRSTUVWXYZabcdefghijklmnopqrstuvwxyz0123456789+/").data

/-- Character for a 6-bit group. -/
def b64Char (n : Nat) : Char := b64Alphabet.getD n ('A')

/-- `base64.b64encode` on a byte list (RFC 4648, `=` padding). -/
def b64encode : List Nat → List Char
  | b1 :: b2 :: b3 :: rest =>
    let w := (b1 % 256) * 65536 + (b2 % 256) * 256 + (b3 % 256)
    b64Char (w / 262144) :: b64Char (w / 4096 % 64) :: b64Char (w / 64 % 64) ::
      b64Char (w % 64) :: b64encode rest
  | [b1, b2] =>
    let w := (b1 % 256) * 1024 + (b2 % 256) * 4
    [b64Char (w / 4096), b64Char (w / 64 % 64), b64Char (w % 64), '=']
  | [b1] =>
    let w := (b1 % 256) * 16
    [b64Char (w / 64), b64Char (w % 64), '=', '=']
  | [] => []

/-- `page_helper.get_image`, parameterized by the image library:
`openImage` models `PIL.Image.open` (reading and decoding the file at
the given path; `none` models a raised decode/`FileNotFoundError`),
and `pngEncode` models `pil_im.save(b, 'png')`, producing the PNG
bytes of the decoded image.  On success the function base64-encodes
the PNG bytes and wraps them in a `data:image/png;base64,` URI; it is
a pure value transformation with no other effect. -/
def get_image {Img : Type} (openImage : String → Option Img)
    (pngEncode : Img → List Nat) (image_name : String) : Option String :=
  (openImage image_name).map (fun pil_im =>
    ("data:image/png;base64,") ++ String.mk (b64encode (pngEncode pil_im)))

-- sanity check
example : String.mk (b64encode [0, 1, 2]) = ("AAEC") := by decide

/-! ## `streamlitapp/streamlit_app.py` — the inference handler -/

/-- One prediction triple from the model-response arrays: a box (4
coordinates), an integer label, and a score.  Coordinates and scores
are modelled as exact rationals. -/
structure DetEntry where
  box : Rat × Rat × Rat × Rat
  label : Int
  score : Rat
deriving DecidableEq

/-- One row of `DETECTION_OUTPUTS` / `DETECTIONS`, as built in the
handler's `rows.append({...})`. -/
structure DetRow where
  filename : String
  image_data : String
  output : String
  label : Int
  box : Rat × Rat × Rat × Rat
  score : Rat
deriving DecidableEq

/-- The parsed JSON model output, with each of the three keys
optionally present (`json.loads(row['output'])` followed by the `in`
checks). -/
structure ModelOutput where
  boxes : Option (List (Rat × Rat × Rat × Rat))
  labels : Option (List Int)
  scores : Option (List Rat)

/-- Diagnostic messages the handler prints instead of raising. -/
inductive Diag where
  | missingKeys
  | noScores
deriving DecidableEq

/-- Zip the three equal-length model arrays into prediction triples
(the rows of the intermediate pandas DataFrame `data`). -/
def zipBLS : List (Rat × Rat × Rat × Rat) → List Int → List Rat → List DetEntry
  | b :: bs, l :: ls, s :: ss => ⟨b, l, s⟩ :: zipBLS bs ls ss
  | _, _, _ => []

/-- Stable descending insertion by score: an element is placed after
every element with a score `≥` its own, so earlier rows keep priority
among ties, matching `nlargest`'s default `keep='first'`. -/
def insertDesc (x : DetEntry) : List DetEntry → List DetEntry
  | [] => [x]
  | y :: ys => if y.score ≤ x.score then x :: y :: ys else y :: insertDesc x ys

/-- Stable sort by score, descending. -/
def sortDesc (l : List DetEntry) : List DetEntry := l.foldr insertDesc []

/-- `data.nlargest(n, 'score')`: the first `n` rows of the stable
descending ordering by score. -/
def nlargest (n : Nat) (l : List DetEntry) : List DetEntry := (sortDesc l).take n

/-- Build one `DETECTION_OUTPUTS` row from a retained triple: the
selected image name, its payload and the raw JSON output are repeated
on every row. -/
def mkDetRow (imagesrc img_data raw_output : String) (e : DetEntry) : DetRow :=
  ⟨imagesrc, img_data, raw_output, e.label, e.box, e.score⟩

/-- The per-response body of the handler loop: if any of
`boxes`/`labels`/`scores` is missing, print a diagnostic and skip;
otherwise build the DataFrame (equal lengths required, else the
`pd.DataFrame` constructor raises), take the top 5 by score when at
least one score exists, and produce the `rows` entries together with
the overlay triples drawn on the figure.  Returns
(rows for `DETECTION_OUTPUTS`, overlay triples, diagnostics). -/
def process_response (imagesrc img_data raw_output : String) (out : ModelOutput) :
    Except PyError (List DetRow × List DetEntry × List Diag) :=
  match out.boxes, out.labels, out.scores with
  | some boxes, some labels, some scores =>
    if boxes.length = labels.length ∧ labels.length = scores.length then
      if 0 < scores.length then
        let data := zipBLS boxes labels scores
        let top := nlargest 5 data
        .ok (top.map (mkDetRow imagesrc img_data raw_output), top, [])
      else .ok ([], [], [.noScores])
    else .error .valueError
  | _, _, _ => .ok ([], [], [.missingKeys])

/-- The two warehouse tables the handler writes. -/
structure DBState where
  detection_outputs : List DetRow
  detections : List DetRow
deriving DecidableEq

/-- The persistence tail of the handler: `DETECTION_OUTPUTS` is
overwritten with the freshly collected rows
(`save_as_table(..., mode="overwrite")`), `DETECTIONS` is created if
absent, and the `INSERT INTO DETECTIONS ... WHERE "filename" = X`
appends the rows of `DETECTION_OUTPUTS` whose filename equals the
selected image name, touching no existing row. -/
def persist_step (db : DBState) (final_rows : List DetRow) (imagesrc : String) : DBState :=
  { detection_outputs := final_rows,
    detections := db.detections ++ final_rows.filter (fun r => r.filename == imagesrc) }

/-- One full inference-persistence run for the selected image: process
the model response, then persist the collected rows. -/
def inference_persist (imagesrc img_data raw_output : String) (out : ModelOutput)
    (db : DBState) : Except PyError DBState :=
  match process_response imagesrc img_data raw_output out with
  | .error e => .error e
  | .ok (rows, _, _) => .ok (persist_step db rows imagesrc)

-- sanity checks
example : process_response ("a.jpg") ("B64") ("RAW")
    ⟨some [((0 : Rat), (0 : Rat), (1 : Rat), (1 : Rat))], some [2], some [(1 : Rat)]⟩ =
    .ok ([⟨("a.jpg"), ("B64"), ("RAW"), 2, ((0 : Rat), (0 : Rat), (1 : Rat), (1 : Rat)), (1 : Rat)⟩],
      [⟨((0 : Rat), (0 : Rat), (1 : Rat), (1 : Rat)), 2, (1 : Rat)⟩], []) := by decide
example : process_response ("a.jpg") ("B64") ("RAW") ⟨none, some [2], some [(1 : Rat)]⟩ =
    .ok ([], [], [.missingKeys]) := by decide

/-! ## `streamlitapp/utils.py` — `exec_python_script` -/

/-- The names bound at module level in `streamlitapp/utils.py` by the
time any of its functions can be called: the aliases its import
statements introduce, the two module-level assignments (`logger`,
`session`), and its three function definitions. -/
def utilsGlobalNames : List String :=
  [("st"), ("F"), ("json"), ("logging"), ("sys"), ("os"), ("Path"), ("get_image"),
   ("alt"), ("pd"), ("time"), ("base64"), ("io"), ("BytesIO"), ("Image"),
   ("logger"), ("session"),
   ("load_sample_and_display_table"), ("list_stage"), ("exec_python_script")]

/-- A representative set of Python builtin names (the fallback scope
after module globals).  `subprocess` is a standard-library module, not
a builtin, so it resolves only if imported. -/
def pythonBuiltinNames : List String :=
  [("print"), ("len"), ("range"), ("open"), ("input"), ("abs"), ("min"), ("max"),
   ("sum"), ("sorted"), ("enumerate"), ("zip"), ("map"), ("filter"), ("str"),
   ("int"), ("float"), ("bool"), ("list"), ("dict"), ("set"), ("tuple"),
   ("type"), ("isinstance"), ("getattr"), ("setattr"), ("hasattr"), ("repr"),
   ("format"), ("id"), ("hash"), ("iter"), ("next"), ("object"), ("Exception"),
   ("ValueError"), ("TypeError"), ("NameError"), ("KeyError"), ("IndexError"),
   ("AttributeError"), ("ImportError"), ("StopIteration"), ("RuntimeError")]

/-- The global name-resolution scope of `utils.py`: module globals,
then builtins. -/
def utilsScope : List String := utilsGlobalNames ++ pythonBuiltinNames

/-- Observable behavior of the child process `subprocess.Popen` would
start: the lines `readline` yields per loop iteration until `poll`
first reports termination, the exit code, and the lines `readlines`
drains afterwards. -/
structure ProcBehavior where
  preLines : List String
  exitCode : Int
  tailLines : List String

/-- The `RETURN CODE: {return_code} \n` line. -/
def retLine (code : Int) : String := ("RETURN CODE: ") ++ toString code ++ (" \n")

/-- The completion marker appended after the loop. -/
def finishLine : String := ("\n --- Finished executing script ---")

/-- The `while True` read/poll loop of `exec_python_script`, which
appends one `readline` result per iteration, and on observing
termination appends the return-code line and the drained remainder
(`readline` yields an empty string at EOF, hence the loop body runs at
least once).  Returns the buffered output and `script_executed`. -/
def runLoop (proc : ProcBehavior) : List String × Bool :=
  let pre := if proc.preLines.isEmpty then [("")] else proc.preLines
  (pre ++ [retLine proc.exitCode] ++ proc.tailLines, true)

/-- The dashboard-visible state `exec_python_script` can touch:
`st.session_state` (a key-value store of transcripts) and the number
of child processes launched so far. -/
structure UtilsState where
  session_state : List (String × List String)
  processesLaunched : Nat
deriving DecidableEq

/-- Store a transcript under a cache key (`st.session_state[key] = buffer`). -/
def setKey (kv : List (String × List String)) (k : String) (v : List String) :
    List (String × List String) :=
  (k, v) :: kv.filter (fun p => ¬ p.1 == k)

/-- `utils.exec_python_script`, executed under a given global scope.
Each global name used by the body must resolve when first evaluated
(`logger.info`, then `subprocess.Popen`, then — after the loop —
`st.session_state`); an unresolvable name raises `NameError` at that
point and nothing later happens.  On the success path the child
process is launched, the loop buffers its output, the marker is
appended, the transcript is stored under the cache key, and
`script_executed` is returned. -/
def exec_python_script (scope : List String) (proc : ProcBehavior)
    (p_pyscript p_cache_id : String) (st : UtilsState) :
    Except PyError Bool × UtilsState :=
  if ¬ scope.contains ("logger") then (.error (.nameError ("logger")), st)
  else if ¬ scope.contains ("subprocess") then (.error (.nameError ("subprocess")), st)
  else
    let st1 : UtilsState :=
      { st with processesLaunched := st.processesLaunched + 1 }
    let (script_output, script_executed) := runLoop proc
    let script_output := script_output ++ [finishLine]
    if ¬ scope.contains ("st") then (.error (.nameError ("st")), st1)
    else (.ok script_executed,
      { st1 with session_state := setKey st1.session_state p_cache_id script_output })

-- sanity check: the module scope does not bind `subprocess`
example : utilsScope.contains ("subprocess") = false := by decide
example : utilsScope.contains ("logger") = true := by decide

/-! ## Claim C9 — `exec_python_script` raises `NameError` -/

/-- C9.  Every call to `exec_python_script`, whatever the script path,
cache key, child-process behavior and prior dashboard state, raises
`NameError` for the name `subprocess` before launching any child
process: `subprocess` is referenced in the body but bound neither by
the module's imports nor by the builtins.  The state is returned
untouched — no transcript is stored in `st.session_state`, no process
is launched — and the function never reaches its `return`. -/
theorem exec_python_script_name_error (proc : ProcBehavior)
    (p_pyscript p_cache_id : String) (st : UtilsState) :
    exec_python_script utilsScope proc p_pyscript p_cache_id st =
      (.error (.nameError ("subprocess")), st) := by
  have hlog : ("logger") ∈ utilsScope := by decide
  have hsub : ("subprocess") ∉ utilsScope := by decide
  simp [exec_python_script, hlog, hsub]

/-! ## Claim C1 — the documented `run_external_script` contract -/

/-- C1 (code bug).  The documented contract — return `true` only after
observing child termination, with the stored transcript ending in the
`RETURN CODE:` line and the completion marker — is unreachable: at a
concrete invocation (`exec_python_script('train_model.py',
'train_output')` from a fresh dashboard state, with a child that would
exit cleanly), the function raises `NameError` for `subprocess` at the
`subprocess.Popen` call and stores nothing. -/
theorem exec_python_script_raises_at_concrete_call :
    exec_python_script utilsScope ⟨[("ok\n")], 0, []⟩ ("train_model.py") ("train_output")
        ⟨[], 0⟩ =
      (.error (.nameError ("subprocess")), ⟨[], 0⟩) := by
  decide

/-! ## Claim C7 — seeded split determinism -/

/-- C7.  The loader's 90/10 split is seeded with `random_state=42`, so
it is a function of the input alone: two runs of `create_tables` that
draw different ambient entropy but receive identical label and image
dataframes produce identical `training_data` and `test_data`
partitions. -/
theorem train_test_split_deterministic (entropy1 entropy2 : Nat)
    (labels : List LabelRec) (images : List ImageRec) :
    (create_tables entropy1 labels images).training_data =
      (create_tables entropy2 labels images).training_data ∧
    (create_tables entropy1 labels images).test_data =
      (create_tables entropy2 labels images).test_data :=
  ⟨rfl, rfl⟩

/-! ## Claim C8 — `DETECTIONS` accumulates duplicates -/

/-- Every row the handler collects carries the selected image's name
in its `filename` field. -/
theorem process_response_rows_filename (imagesrc img_data raw_output : String)
    (out : ModelOutput) (rows : List DetRow) (sel : List DetEntry) (msgs : List Diag)
    (h : process_response imagesrc img_data raw_output out = .ok (rows, sel, msgs)) :
    ∀ q ∈ rows, q.filename = imagesrc := by
  obtain ⟨b, l, s⟩ := out
  cases b <;> cases l <;> cases s <;> simp only [process_response] at h
  case some.some.some bv lv sv =>
    split at h
    · split at h
      · simp only [Except.ok.injEq, Prod.mk.injEq] at h
        intro q hq
        rw [← h.1] at hq
        obtain ⟨e, _, rfl⟩ := List.mem_map.mp hq
        rfl
      · simp only [Except.ok.injEq, Prod.mk.injEq] at h
        rw [← h.1]
        intro q hq
        cases hq
    · cases h
  all_goals
    simp only [Except.ok.injEq, Prod.mk.injEq] at h
    rw [← h.1]
    intro q hq
    cases hq

/-- C8.  Running the inference-persistence step for the selected image
and then running it again appends a second, duplicate copy of the
collected rows to `DETECTIONS`: the insert selects from
`DETECTION_OUTPUTS` by exact filename match (which matches every
collected row, since they all carry the selected image's name) and
only appends, never deduplicating or deleting existing rows. -/
theorem detections_append_duplicate (imagesrc img_data raw_output : String)
    (out : ModelOutput) (db : DBState) (rows : List DetRow) (sel : List DetEntry)
    (msgs : List Diag)
    (hrun : process_response imagesrc img_data raw_output out = .ok (rows, sel, msgs)) :
    inference_persist imagesrc img_data raw_output out db =
      .ok (persist_step db rows imagesrc) ∧
    inference_persist imagesrc img_data raw_output out (persist_step db rows imagesrc) =
      .ok (persist_step (persist_step db rows imagesrc) rows imagesrc) ∧
    (persist_step (persist_step db rows imagesrc) rows imagesrc).detections =
      db.detections ++ rows ++ rows ∧
    (persist_step (persist_step db rows imagesrc) rows imagesrc).detection_outputs =
      rows := by
  have hf : rows.filter (fun r => r.filename == imagesrc) = rows :=
    List.filter_eq_self.mpr (fun q hq => by
      have hq' := process_response_rows_filename imagesrc img_data raw_output out
        rows sel msgs hrun q hq
      simp [hq'])
  refine ⟨?_, ?_, ?_, rfl⟩
  · simp [inference_persist, hrun]
  · simp [inference_persist, hrun]
  · simp [persist_step, hf, List.append_assoc]

/-- Witness for C8 at a concrete one-detection response and an empty
database. -/
theorem detections_append_duplicate_witness :
    inference_persist ("a.jpg") ("B64") ("RAW")
        ⟨some [((0 : Rat), (0 : Rat), (1 : Rat), (1 : Rat))], some [2], some [(1 : Rat)]⟩
        ⟨[], []⟩ =
      .ok (persist_step ⟨[], []⟩
        [⟨("a.jpg"), ("B64"), ("RAW"), 2, ((0 : Rat), (0 : Rat), (1 : Rat), (1 : Rat)), (1 : Rat)⟩]
        ("a.jpg")) ∧
    (persist_step (persist_step ⟨[], []⟩
        [⟨("a.jpg"), ("B64"), ("RAW"), 2, ((0 : Rat), (0 : Rat), (1 : Rat), (1 : Rat)), (1 : Rat)⟩]
        ("a.jpg"))
        [⟨("a.jpg"), ("B64"), ("RAW"), 2, ((0 : Rat), (0 : Rat), (1 : Rat), (1 : Rat)), (1 : Rat)⟩]
        ("a.jpg")).detections =
      ([] : List DetRow) ++
        [⟨("a.jpg"), ("B64"), ("RAW"), 2, ((0 : Rat), (0 : Rat), (1 : Rat), (1 : Rat)), (1 : Rat)⟩] ++
        [⟨("a.jpg"), ("B64"), ("RAW"), 2, ((0 : Rat), (0 : Rat), (1 : Rat), (1 : Rat)), (1 : Rat)⟩] := by
  have h := detections_append_duplicate ("a.jpg") ("B64") ("RAW")
    ⟨some [((0 : Rat), (0 : Rat), (1 : Rat), (1 : Rat))], some [2], some [(1 : Rat)]⟩
    ⟨[], []⟩
    [⟨("a.jpg"), ("B64"), ("RAW"), 2, ((0 : Rat), (0 : Rat), (1 : Rat), (1 : Rat)), (1 : Rat)⟩]
    [⟨((0 : Rat), (0 : Rat), (1 : Rat), (1 : Rat)), 2, (1 : Rat)⟩] [] (by decide)
  exact ⟨h.1, h.2.2.1⟩

/-! ## Claim C4 — responses with missing JSON keys are skipped -/

/-- C4.  If any of `boxes`/`labels`/`scores` is absent from the parsed
model output, processing that response collects no rows (so the
subsequent overwrite leaves `DETECTION_OUTPUTS` empty and the filtered
insert leaves `DETECTIONS` untouched), raises no exception, and emits
the missing-keys diagnostic. -/
theorem process_response_missing_keys (imagesrc img_data raw_output : String)
    (out : ModelOutput) (db : DBState)
    (h : out.boxes = none ∨ out.labels = none ∨ out.scores = none) :
    process_response imagesrc img_data raw_output out = .ok ([], [], [.missingKeys]) ∧
    (persist_step db [] imagesrc).detection_outputs = [] ∧
    (persist_step db [] imagesrc).detections = db.detections := by
  obtain ⟨b, l, s⟩ := out
  refine ⟨?_, rfl, by simp [persist_step]⟩
  simp only at h
  rcases h with h | h | h <;> subst h
  · cases l <;> cases s <;> simp [process_response]
  · cases b <;> cases s <;> simp [process_response]
  · cases b <;> cases l <;> simp [process_response]

/-- Witness for C4 at a concrete response missing the `boxes` key. -/
theorem process_response_missing_keys_witness :
    process_response ("a.jpg") ("B64") ("RAW") ⟨none, some [2], some [(1 : Rat)]⟩ =
      .ok ([], [], [.missingKeys]) ∧
    (persist_step ⟨[⟨("a.jpg"), ("B64"), ("OLD"), 1,
        ((0 : Rat), (0 : Rat), (1 : Rat), (1 : Rat)), (1 : Rat)⟩], []⟩ [] ("a.jpg")).detection_outputs = [] ∧
    (persist_step ⟨[⟨("a.jpg"), ("B64"), ("OLD"), 1,
        ((0 : Rat), (0 : Rat), (1 : Rat), (1 : Rat)), (1 : Rat)⟩], []⟩ [] ("a.jpg")).detections = [] :=
  process_response_missing_keys ("a.jpg") ("B64") ("RAW")
    ⟨none, some [2], some [(1 : Rat)]⟩
    ⟨[⟨("a.jpg"), ("B64"), ("OLD"), 1, ((0 : Rat), (0 : Rat), (1 : Rat), (1 : Rat)), (1 : Rat)⟩], []⟩
    (Or.inl rfl)

/-! ## Claim C6 — `get_image` always returns a PNG data URI -/

/-- C6.  For every path whose image file opens and decodes
successfully, `get_image` returns the string
`data:image/png;base64,<payload>` where the payload is the base64
encoding of the decoded image re-encoded as PNG — a PNG data URI
whatever the source format.  The function is a pure transformation:
its result is fully determined by the decoded image and it touches no
other state. -/
theorem get_image_png_data_uri {Img : Type} (openImage : String → Option Img)
    (pngEncode : Img → List Nat) (image_name : String) (pil_im : Img)
    (h : openImage image_name = some pil_im) :
    get_image openImage pngEncode image_name =
      some (("data:image/png;base64,") ++ String.mk (b64encode (pngEncode pil_im))) ∧
    ∀ res, get_image openImage pngEncode image_name = some res →
      ∃ payload, res = ("data:image/png;base64,") ++ payload := by
  constructor
  · simp [get_image, h]
  · intro res hres
    simp only [get_image, h, Option.map_some', Option.some.injEq] at hres
    exact ⟨String.mk (b64encode (pngEncode pil_im)), hres.symm⟩

/-- Witness for C6: a 3-byte "PNG encoding" whose base64 payload is
`AAEC`. -/
theorem get_image_png_data_uri_witness :
    get_image (fun _ => some ()) (fun _ => [0, 1, 2]) ("board.gif") =
      some ("data:image/png;base64,AAEC") := by
  have h := (get_image_png_data_uri (fun _ => some ()) (fun _ => [0, 1, 2])
    ("board.gif") () rfl).1
  rw [h]
  decide

/-! ## Claim C5 — 5-token annotation lines -/

/-- C5.  An annotation line that tokenizes into exactly 5 tokens
yields exactly one bounding-box record — the four coordinates being
the first four tokens as parsed by `float()`, the class field the
fifth token as parsed by `int()`, tagged with the image's base
filename — and a line with any other token count yields no record. -/
theorem parseLine_five_tokens (base line : String) :
    (∀ t1 t2 t3 t4 t5 v1 v2 v3 v4 c,
        tokenize line = [t1, t2, t3, t4, t5] →
        pyFloatParse t1 = some v1 → pyFloatParse t2 = some v2 →
        pyFloatParse t3 = some v3 → pyFloatParse t4 = some v4 →
        pyIntParse t5 = some c →
        parseLine base line = .ok [⟨base, v1, v2, v3, v4, c⟩]) ∧
    ((tokenize line).length ≠ 5 → parseLine base line = .ok []) := by
  constructor
  · intro t1 t2 t3 t4 t5 v1 v2 v3 v4 c htok h1 h2 h3 h4 h5
    simp [parseLine, htok, h1, h2, h3, h4, h5]
  · intro hlen
    rcases hts : tokenize line with _ | ⟨t1, _ | ⟨t2, _ | ⟨t3, _ | ⟨t4, _ | ⟨t5, _ | ⟨t6, ts⟩⟩⟩⟩⟩⟩
    · simp [parseLine, hts]
    · simp [parseLine, hts]
    · simp [parseLine, hts]
    · simp [parseLine, hts]
    · simp [parseLine, hts]
    · exact absurd (by rw [hts]; rfl) hlen
    · simp [parseLine, hts]

/-- Witness for C5: a well-formed 5-token line produces its one
record, and a 3-token line produces none. -/
theorem parseLine_five_tokens_witness :
    parseLine ("00041000") ("10 20.5 30 40 2") =
      .ok [⟨("00041000"), .finite 10 0, .finite 205 1, .finite 30 0, .finite 40 0, 2⟩] ∧
    parseLine ("00041000") ("10 20 30") = .ok [] := by
  constructor
  · exact (parseLine_five_tokens ("00041000") ("10 20.5 30 40 2")).1
      ("10") ("20.5") ("30") ("40") ("2") (.finite 10 0) (.finite 205 1) (.finite 30 0)
      (.finite 40 0) 2 (by decide) (by decide) (by decide) (by decide) (by decide) (by decide)
  · exact (parseLine_five_tokens ("00041000") ("10 20 30")).2 (by decide)

/-! ## Claim C10 — unparseable tokens raise and abort the loader -/

theorem exceptBind_ok {α β : Type} (a : α) (f : α → Except PyError β) :
    (Except.ok a >>= f) = f a := rfl

theorem exceptBind_error {α β : Type} (e : PyError) (f : α → Except PyError β) :
    ((Except.error e : Except PyError α) >>= f) = Except.error e := rfl

/-- A line whose parse raises makes the whole label file's parse
raise (possibly with an earlier line's exception). -/
theorem parseLabelFile_error_of_mem (base : String) (lines : List String) (line : String)
    (hl : line ∈ lines) (he : ∃ e, parseLine base line = .error e) :
    ∃ e, parseLabelFile base lines = .error e := by
  induction lines with
  | nil => cases hl
  | cons hd tl ih =>
    rcases List.mem_cons.mp hl with rfl | hmem
    · obtain ⟨e, he⟩ := he
      exact ⟨e, by simp [parseLabelFile, he, exceptBind_error]⟩
    · cases hhd : parseLine base hd with
      | error e => exact ⟨e, by simp [parseLabelFile, hhd, exceptBind_error]⟩
      | ok recs =>
        obtain ⟨e, htl⟩ := ih hmem
        exact ⟨e, by simp [parseLabelFile, hhd, htl, exceptBind_ok, exceptBind_error]⟩

/-- A label file whose parse raises makes `find_and_parse_labels`
raise. -/
theorem find_and_parse_labels_error_of_mem (files : List (String × List String))
    (base : String) (lines : List String)
    (hf : (base, lines) ∈ files) (he : ∃ e, parseLabelFile base lines = .error e) :
    ∃ e, find_and_parse_labels files = .error e := by
  induction files with
  | nil => cases hf
  | cons hd tl ih =>
    obtain ⟨b0, l0⟩ := hd
    rcases List.mem_cons.mp hf with heq | hmem
    · obtain ⟨rfl, rfl⟩ := Prod.mk.injEq .. |>.mp heq
      obtain ⟨e, he⟩ := he
      exact ⟨e, by simp [find_and_parse_labels, he, exceptBind_error]⟩
    · cases hhd : parseLabelFile b0 l0 with
      | error e => exact ⟨e, by simp [find_and_parse_labels, hhd, exceptBind_error]⟩
      | ok recs =>
        obtain ⟨e, htl⟩ := ih hmem
        exact ⟨e, by simp [find_and_parse_labels, hhd, htl, exceptBind_ok, exceptBind_error]⟩

/-- C10.  A 5-token line with a coordinate token `float()` cannot
parse, or a class token `int()` cannot parse, raises `ValueError`
instead of being dropped; the exception escapes
`find_and_parse_labels`, and `main`'s top-level handler turns it into
a non-zero process exit. -/
theorem bad_token_raises_and_exits (files : List (String × List String))
    (base line : String) (lines : List String) (t1 t2 t3 t4 t5 : String)
    (hf : (base, lines) ∈ files) (hl : line ∈ lines)
    (htok : tokenize line = [t1, t2, t3, t4, t5])
    (hbad : pyFloatParse t1 = none ∨ pyFloatParse t2 = none ∨ pyFloatParse t3 = none ∨
      pyFloatParse t4 = none ∨ pyIntParse t5 = none) :
    parseLine base line = .error .valueError ∧
    (∃ e, find_and_parse_labels files = .error e) ∧
    ∀ images entropy, main_exit files images entropy = 1 := by
  have hpl : parseLine base line = .error .valueError := by
    rcases hbad with h | h | h | h | h
    · simp [parseLine, htok, h]
    · cases h1 : pyFloatParse t1 <;> simp [parseLine, htok, h1, h]
    · cases h1 : pyFloatParse t1 <;> cases h2 : pyFloatParse t2 <;>
        simp [parseLine, htok, h1, h2, h]
    · cases h1 : pyFloatParse t1 <;> cases h2 : pyFloatParse t2 <;>
        cases h3 : pyFloatParse t3 <;> simp [parseLine, htok, h1, h2, h3, h]
    · cases h1 : pyFloatParse t1 <;> cases h2 : pyFloatParse t2 <;>
        cases h3 : pyFloatParse t3 <;> cases h4 : pyFloatParse t4 <;>
        simp [parseLine, htok, h1, h2, h3, h4, h]
  have hall : ∃ e, find_and_parse_labels files = .error e :=
    find_and_parse_labels_error_of_mem files base lines hf
      (parseLabelFile_error_of_mem base lines line hl ⟨.valueError, hpl⟩)
  refine ⟨hpl, hall, ?_⟩
  intro images entropy
  obtain ⟨e, he⟩ := hall
  simp [main_exit, he]

/-- Witness for C10 at a label file whose single line is
`a b c d e`. -/
theorem bad_token_raises_and_exits_witness :
    parseLine ("f1") ("a b c d e") = .error .valueError ∧
    (∃ e, find_and_parse_labels [(("f1"), [("a b c d e")])] = .error e) ∧
    main_exit [(("f1"), [("a b c d e")])] [] 0 = 1 := by
  have h := bad_token_raises_and_exits [(("f1"), [("a b c d e")])] ("f1") ("a b c d e")
    [("a b c d e")] ("a") ("b") ("c") ("d") ("e") (by decide) (by decide) (by decide)
    (Or.inl (by decide))
  exact ⟨h.1, h.2.1, h.2.2 [] 0⟩

/-! ## Claim C2 — the `_test` suffix strip is a replace-all -/

/-- The pattern `_test` as characters. -/
def testChars : List Char := [('_' : Char), 't', 'e', 's', 't']

/-- Appending `_test` to a non-empty character list cannot create a
`_test` match at the front that was not already there: no proper
prefix of `_test` is also one of its proper suffixes. -/
theorem startsWithTest_append_testChars (l : List Char) (hne : l ≠ []) :
    startsWithTest (l ++ testChars) = startsWithTest l := by
  match l with
  | [] => exact absurd rfl hne
  | [a] => simp [testChars, startsWithTest]
  | [a, b] => simp [testChars, startsWithTest]
  | [a, b, c] => simp [testChars, startsWithTest]
  | [a, b, c, d] => simp [testChars, startsWithTest]
  | a :: b :: c :: d :: e :: rest => simp [testChars, startsWithTest]

theorem stripTestAll_neg (c : Char) (r : List Char)
    (h : startsWithTest (c :: r) = false) :
    stripTestAll (c :: r) = c :: stripTestAll r := by
  rw [stripTestAll.eq_def]
  split
  · rename_i rest heq
    rw [show c :: r = ('_' : Char) :: 't' :: 'e' :: 's' :: 't' :: rest from heq] at h
    simp [startsWithTest] at h
  · rename_i c' rest hnomatch heq
    cases heq
    rfl
  all_goals simp_all

/-- On a list that contains no `_test`, the replace-all of `_test`
over the list with `_test` appended removes exactly that appended
suffix. -/
theorem stripTestAll_append_testChars (l : List Char) (h : containsTest l = false) :
    stripTestAll (l ++ testChars) = l := by
  induction l with
  | nil => rfl
  | cons c r ih =>
    have hparts : startsWithTest (c :: r) = false ∧ containsTest r = false := by
      have hh := h
      simp only [containsTest, Bool.or_eq_false_iff] at hh
      exact hh
    have hswt : startsWithTest ((c :: r) ++ testChars) = false := by
      rw [startsWithTest_append_testChars (c :: r) (by simp)]
      exact hparts.1
    have hcons : (c :: r) ++ testChars = c :: (r ++ testChars) := rfl
    rw [hcons] at hswt ⊢
    rw [stripTestAll_neg c (r ++ testChars) hswt, ih hparts.2]

/-- String-level version: if the base filename has no `_test`
substring, stripping after the suffixing join key round-trips. -/
theorem stripTest_append_test (s : String) (h : containsTest s.data = false) :
    stripTest (s ++ ("_test")) = s := by
  unfold stripTest
  have htc : ("_test").data = testChars := by decide
  have hd : (s ++ ("_test")).data = s.data ++ testChars := by
    rw [String.data_append, htc]
  rw [hd, stripTestAll_append_testChars s.data h]

/-- C2 counterexample: the column operation
`str.replace('_test', '', regex=False)` removes every `_test`
occurrence, not only the appended suffix.  For the (reachable) base
filename `a_test_b` — produced from a file named `a_test_b_test.jpg` —
the joined row is stored under `a_b`, not under the original base
filename `a_test_b`. -/
theorem create_tables_merge_strip_cex :
    (create_tables_merge
        [⟨("a_test_b"), .finite 0 0, .finite 0 0, .finite 0 0, .finite 0 0, 0⟩]
        [⟨("a_test_b_test"), ("D")⟩]).map (fun m => m.Filename) = [("a_b")] ∧
    ("a_b") ≠ ("a_test_b") := by
  constructor
  · decide
  · decide

/-- C2 (amended).  After the inner join, every joined row's stored
filename is the replace-all of `_test` applied to its annotation's
suffixed filename; in particular, whenever the base filename does not
itself contain `_test` as a substring, the stored filename equals the
original base filename the annotation carried. -/
theorem create_tables_merge_strip (labels : List LabelRec) (images : List ImageRec)
    (m : MergedRec) (hm : m ∈ create_tables_merge labels images) :
    ∃ l ∈ labels, m.Filename = stripTest (l.filename ++ ("_test")) ∧
      (containsTest l.filename.data = false → m.Filename = l.filename) := by
  unfold create_tables_merge at hm
  simp only [List.mem_map, List.mem_flatMap, List.mem_filter] at hm
  obtain ⟨m0, ⟨l, hl, hm0⟩, rfl⟩ := hm
  obtain ⟨i, ⟨hi, hbeq⟩, rfl⟩ := hm0
  refine ⟨l, hl, rfl, ?_⟩
  intro hnc
  exact stripTest_append_test l.filename hnc

/-- Witness for the amended C2 at a plain numeric base filename. -/
theorem create_tables_merge_strip_witness :
    (⟨("00041000"), .finite 0 0, .finite 0 0, .finite 0 0, .finite 0 0, 0,
        ("D")⟩ : MergedRec) ∈
      create_tables_merge
        [⟨("00041000"), .finite 0 0, .finite 0 0, .finite 0 0, .finite 0 0, 0⟩]
        [⟨("00041000_test"), ("D")⟩] ∧
    ∃ l ∈ [(⟨("00041000"), .finite 0 0, .finite 0 0, .finite 0 0, .finite 0 0,
        0⟩ : LabelRec)],
      (⟨("00041000"), .finite 0 0, .finite 0 0, .finite 0 0, .finite 0 0, 0,
          ("D")⟩ : MergedRec).Filename = stripTest (l.filename ++ ("_test")) ∧
      (containsTest l.filename.data = false →
        (⟨("00041000"), .finite 0 0, .finite 0 0, .finite 0 0, .finite 0 0, 0,
            ("D")⟩ : MergedRec).Filename = l.filename) :=
  ⟨by decide,
   create_tables_merge_strip
     [⟨("00041000"), .finite 0 0, .finite 0 0, .finite 0 0, .finite 0 0, 0⟩]
     [⟨("00041000_test"), ("D")⟩]
     ⟨("00041000"), .finite 0 0, .finite 0 0, .finite 0 0, .finite 0 0, 0, ("D")⟩
     (by decide)⟩

/-! ## Claim C3 — top-5 selection by score -/

/-- "`a` scores at least `b`" — the descending order on prediction
triples. -/
def scoreGE (a b : DetEntry) : Prop := b.score ≤ a.score

theorem insertDesc_perm (x : DetEntry) (l : List DetEntry) :
    List.Perm (insertDesc x l) (x :: l) := by
  induction l with
  | nil => exact List.Perm.refl _
  | cons y ys ih =>
    by_cases hy : y.score ≤ x.score
    · rw [show insertDesc x (y :: ys) = x :: y :: ys from by simp [insertDesc, hy]]
    · rw [show insertDesc x (y :: ys) = y :: insertDesc x ys from by simp [insertDesc, hy]]
      exact (ih.cons y).trans (List.Perm.swap x y ys)

theorem sortDesc_perm (l : List DetEntry) : List.Perm (sortDesc l) l := by
  induction l with
  | nil => exact List.Perm.refl _
  | cons x xs ih => exact (insertDesc_perm x (sortDesc xs)).trans (ih.cons x)

theorem sortDesc_length (l : List DetEntry) : (sortDesc l).length = l.length :=
  (sortDesc_perm l).length_eq

theorem insertDesc_pairwise (x : DetEntry) (l : List DetEntry)
    (h : List.Pairwise scoreGE l) : List.Pairwise scoreGE (insertDesc x l) := by
  induction l with
  | nil => simp [insertDesc]
  | cons y ys ih =>
    cases h with
    | cons hy hys =>
      by_cases hxy : y.score ≤ x.score
      · rw [show insertDesc x (y :: ys) = x :: y :: ys from by simp [insertDesc, hxy]]
        refine List.Pairwise.cons ?_ (List.Pairwise.cons hy hys)
        intro b hb
        rcases List.mem_cons.mp hb with rfl | hb
        · exact hxy
        · exact le_trans (hy b hb) hxy
      · rw [show insertDesc x (y :: ys) = y :: insertDesc x ys from by simp [insertDesc, hxy]]
        refine List.Pairwise.cons ?_ (ih hys)
        intro b hb
        have hb' : b ∈ x :: ys := (insertDesc_perm x ys).mem_iff.mp hb
        rcases List.mem_cons.mp hb' with rfl | hby
        · exact le_of_not_le hxy
        · exact hy b hby

theorem sortDesc_pairwise (l : List DetEntry) : List.Pairwise scoreGE (sortDesc l) := by
  induction l with
  | nil => exact List.Pairwise.nil
  | cons x xs ih => exact insertDesc_pairwise x (sortDesc xs) ih

theorem zipBLS_length (bs : List (Rat × Rat × Rat × Rat)) (ls : List Int) (ss : List Rat)
    (h1 : bs.length = ls.length) (h2 : ls.length = ss.length) :
    (zipBLS bs ls ss).length = ss.length := by
  induction bs generalizing ls ss with
  | nil =>
    cases ls with
    | nil =>
      cases ss with
      | nil => rfl
      | cons s ss => simp at h2
    | cons l ls => simp at h1
  | cons b bs ih =>
    cases ls with
    | nil => simp at h1
    | cons l ls =>
      cases ss with
      | nil => simp at h2
      | cons s ss =>
        simp only [zipBLS, List.length_cons]
        rw [ih ls ss (by simpa using h1) (by simpa using h2)]

/-- C3.  For a response whose three arrays all have common length
`K ≥ 1`, the handler keeps exactly `min K 5` prediction triples — a
sub-multiset of the response's triples, sorted descending by score,
with every kept score at least every discarded score — and the same
`min K 5` triples feed both the overlay and the rows collected for
`DETECTION_OUTPUTS`. -/
theorem process_response_top5 (imagesrc img_data raw_output : String) (out : ModelOutput)
    (boxes : List (Rat × Rat × Rat × Rat)) (labels : List Int) (scores : List Rat) (K : Nat)
    (hb : out.boxes = some boxes) (hl : out.labels = some labels)
    (hs : out.scores = some scores)
    (hK1 : boxes.length = K) (hK2 : labels.length = K) (hK3 : scores.length = K)
    (hK : 1 ≤ K) :
    process_response imagesrc img_data raw_output out =
      .ok ((nlargest 5 (zipBLS boxes labels scores)).map
          (mkDetRow imagesrc img_data raw_output),
        nlargest 5 (zipBLS boxes labels scores), []) ∧
    (nlargest 5 (zipBLS boxes labels scores)).length = min K 5 ∧
    ((nlargest 5 (zipBLS boxes labels scores)).map
        (mkDetRow imagesrc img_data raw_output)).length = min K 5 ∧
    List.Pairwise scoreGE (nlargest 5 (zipBLS boxes labels scores)) ∧
    List.Perm
      (nlargest 5 (zipBLS boxes labels scores) ++
        (sortDesc (zipBLS boxes labels scores)).drop 5)
      (zipBLS boxes labels scores) ∧
    (∀ a ∈ nlargest 5 (zipBLS boxes labels scores),
      ∀ b ∈ (sortDesc (zipBLS boxes labels scores)).drop 5, b.score ≤ a.score) := by
  obtain ⟨ob, ol, os⟩ := out
  simp only at hb hl hs
  subst hb
  subst hl
  subst hs
  have hzl : (zipBLS boxes labels scores).length = K := by
    rw [zipBLS_length boxes labels scores (by omega) (by omega)]
    omega
  have hlen : (nlargest 5 (zipBLS boxes labels scores)).length = min K 5 := by
    rw [show nlargest 5 (zipBLS boxes labels scores) =
        (sortDesc (zipBLS boxes labels scores)).take 5 from rfl]
    rw [List.length_take, sortDesc_length, hzl, Nat.min_comm]
  refine ⟨?_, hlen, ?_, ?_, ?_, ?_⟩
  · have hc1 : boxes.length = labels.length := by omega
    have hc2 : labels.length = scores.length := by omega
    have hc3 : 0 < scores.length := by omega
    simp [process_response, hc1, hc2, hc3]
  · rw [List.length_map, hlen]
  · exact (sortDesc_pairwise _).sublist (List.take_sublist _ _)
  · show List.Perm
      ((sortDesc (zipBLS boxes labels scores)).take 5 ++
        (sortDesc (zipBLS boxes labels scores)).drop 5)
      (zipBLS boxes labels scores)
    rw [List.take_append_drop]
    exact sortDesc_perm _
  · intro a ha b hbm
    have hp := sortDesc_pairwise (zipBLS boxes labels scores)
    rw [← List.take_append_drop 5 (sortDesc (zipBLS boxes labels scores))] at hp
    exact (List.pairwise_append.mp hp).2.2 a ha b hbm

/-- Witness for C3 at a concrete 7-prediction response. -/
theorem process_response_top5_witness :
    process_response ("a.jpg") ("B64") ("RAW")
        ⟨some (List.replicate 7 ((0 : Rat), (0 : Rat), (1 : Rat), (1 : Rat))),
         some [0, 1, 2, 3, 4, 5, 0],
         some [(3 : Rat), 1, 2, 7, 5, 4, 6]⟩ =
      .ok ((nlargest 5 (zipBLS (List.replicate 7 ((0 : Rat), (0 : Rat), (1 : Rat), (1 : Rat)))
            [0, 1, 2, 3, 4, 5, 0] [(3 : Rat), 1, 2, 7, 5, 4, 6])).map
          (mkDetRow ("a.jpg") ("B64") ("RAW")),
        nlargest 5 (zipBLS (List.replicate 7 ((0 : Rat), (0 : Rat), (1 : Rat), (1 : Rat)))
          [0, 1, 2, 3, 4, 5, 0] [(3 : Rat), 1, 2, 7, 5, 4, 6]), []) ∧
    (nlargest 5 (zipBLS (List.replicate 7 ((0 : Rat), (0 : Rat), (1 : Rat), (1 : Rat)))
        [0, 1, 2, 3, 4, 5, 0] [(3 : Rat), 1, 2, 7, 5, 4, 6])).length = min 7 5 := by
  have h := process_response_top5 ("a.jpg") ("B64") ("RAW")
    ⟨some (List.replicate 7 ((0 : Rat), (0 : Rat), (1 : Rat), (1 : Rat))),
     some [0, 1, 2, 3, 4, 5, 0],
     some [(3 : Rat), 1, 2, 7, 5, 4, 6]⟩
    (List.replicate 7 ((0 : Rat), (0 : Rat), (1 : Rat), (1 : Rat)))
    [0, 1, 2, 3, 4, 5, 0] [(3 : Rat), 1, 2, 7, 5, 4, 6] 7
    rfl rfl rfl (by decide) (by decide) (by decide) (by decide)
  exact ⟨h.1, h.2.1⟩
